import Mathlib

/-!
Verification of the pride-month animation renderer
(`crates/hyfetch/src/pride_month.rs`).

The Rust module is shallowly embedded here:

* `usize` values become `Nat`; where the Rust program performs a `usize`
  subtraction whose underflow behaviour is at issue, a checked variant
  (`csub`, returning `Option Nat`) models Rust's overflow check, and the
  plain truncated `Nat` subtraction is used elsewhere.
* The `f64` sine in the wave-index computation is modelled with `Real.sin`;
  Rust's saturating `as usize` cast of an `f64` is `Nat.floor` on `ℝ`
  (truncation toward zero for non-negative values, `0` for negative ones).
* The colour palette (`Preset::VARIANTS`, defined outside this module) is an
  abstract list of RGB triples; the ANSI string encoding (`color_util`,
  `palette` crates, also outside this module) is kept symbolic: the frame
  buffer is a list of tokens recording each emitted escape sequence and
  character in order.
-/

namespace PrideMonth

/-- An 8-bit-per-channel RGB colour (`palette::Srgb<u8>`). -/
structure Color where
  r : Nat
  g : Nat
  b : Nat
deriving DecidableEq, Repr

/-- A run of 54 equals-sign characters — the filling of the art block's top
and bottom border rows. -/
def eqRun : String := String.mk (List.replicate 54 '=')

/-- Source constant `TEXT_ASCII: &str` — the raw string literal, including its
leading and trailing newline, exactly as in the source; its first and last
rows are a period (respectively an apostrophe) on each side of 54 equals
signs. -/
def TEXT_ASCII : String :=
  "\n." ++ eqRun ++ ".\n| .  .              .__       .     .  .       , .   | |\n| |__| _.._ ._   .  [__)._.* _| _   |\\/| _ ._ -+-|_  | |\n| |  |(_][_)[_)\\_|  |   [  |(_](/,  |  |(_)[ ) | [ ) * |\n|        |  |  ._|                                     |\n'" ++ eqRun ++ "'\n"

/-- Source constant `NOTICE: &str`. -/
def NOTICE : String := "Press enter to continue"

/-- Source binding `text = &TEXT_ASCII[1..TEXT_ASCII.len() - 1]` — strings are
handled through their character lists (the text is ASCII, so bytes and
characters coincide). -/
def text : List Char := (TEXT_ASCII.data.drop 1).dropLast

/-- Splitting a character list at every occurrence of a separator character,
with the semantics of Rust's `str::split`: `n` separators yield `n + 1`
pieces, so the result is never empty. -/
def splitOnChar (sep : Char) : List Char → List (List Char)
  | [] => [[]]
  | c :: cs =>
    if c = sep then [] :: splitOnChar sep cs
    else
      match splitOnChar sep cs with
      | [] => [[c]]
      | l :: ls => (c :: l) :: ls

/-- Source binding `text_lines = text.split('\n').collect()`. -/
def text_lines : List (List Char) := splitOnChar '\n' text

/-- Source binding `text_height = text_lines.len()`. -/
def text_height : Nat := text_lines.length

/-- Source binding `text_width = text_lines[0].len()` (the index `0` always
exists because a split is non-empty; modelled with `getD`). -/
def text_width : Nat := (text_lines.getD 0 []).length

/-- Source constant `BLOCKS: usize = 9`. -/
def BLOCKS : Nat := 9

/-- Source binding `speed = 2`. -/
def speed : Nat := 2

/-- Source binding `fg: Srgb<u8>`, the constant foreground colour `#FFE09B`. -/
def fg : Color := ⟨0xFF, 0xE0, 0x9B⟩

/-- The bounding boxes and stripe width computed once by `start_animation`
from the terminal geometry (the Layout Calculator's output). -/
structure Layout where
  block_width : Nat
  text_start_y : Nat
  text_end_y : Nat
  text_start_x : Nat
  text_end_x : Nat
  notice_start_x : Nat
  notice_end_x : Nat
  notice_y : Nat
deriving DecidableEq, Repr

/-- The layout computation of `start_animation` with `Nat` (truncated)
subtraction, used by the rest of the embedding. -/
def layout (w h : Nat) : Layout where
  block_width := w / BLOCKS
  text_start_y := h / 2 - text_height / 2
  text_end_y := h / 2 - text_height / 2 + text_height
  text_start_x := w / 2 - text_width / 2
  text_end_x := w / 2 - text_width / 2 + text_width
  notice_start_x := w - NOTICE.length - 1
  notice_end_x := w - 1
  notice_y := h - 1

/-- Checked `usize` subtraction: `a - b` fails (Rust: panics with overflow
checks on, the default for debug builds) when `b > a`. -/
def csub (a b : Nat) : Option Nat := if b ≤ a then some (a - b) else none

/-- The same layout computation with every `usize` subtraction checked, to
model where Rust's unsigned arithmetic can underflow. -/
def layoutChecked (w h : Nat) : Option Layout := do
  let block_width := w / BLOCKS
  let text_start_y ← csub (h / 2) (text_height / 2)
  let text_end_y := text_start_y + text_height
  let text_start_x ← csub (w / 2) (text_width / 2)
  let text_end_x := text_start_x + text_width
  let t ← csub w NOTICE.length
  let notice_start_x ← csub t 1
  let notice_end_x ← csub w 1
  let notice_y ← csub h 1
  pure { block_width, text_start_y, text_end_y, text_start_x, text_end_x,
         notice_start_x, notice_end_x, notice_y }

/-- The colour-selection index `(idx / block_width) % colors.len()`
(`draw_frame`, used both for the per-row starting colour with
`idx = frame + y` and for the per-cell stripe colour). -/
def colorIndex (idx block_width len : Nat) : Nat := idx / block_width % len

/-- The real-valued sine term `2.0 * (y as f64 + 0.5 * frame as f64).sin()`
of the wave index (`draw_frame`); the `f64` computation is modelled over
`ℝ`. -/
noncomputable def waveTerm (frame y : Nat) : ℝ :=
  2 * Real.sin ((y : ℝ) + 0.5 * (frame : ℝ))

/-- Rust's `expr as usize` applied to the sine term: an `f64`-to-`usize`
cast truncates toward zero and saturates at `0` for negative values, which
on `ℝ` is exactly `Nat.floor`. -/
noncomputable def waveNat (frame y : Nat) : Nat := ⌊waveTerm frame y⌋₊

/-- Source binding `idx = frame + x + y + (2.0 * (y as f64 + 0.5 * frame as f64).sin()) as usize`
in `draw_frame`. -/
noncomputable def idx (frame x y : Nat) : Nat := frame + x + y + waveNat frame y

/-- One element of the composed frame buffer. The buffer in `draw_frame` is a
flat `String` of ANSI escape sequences and display characters; the escape
encodings (`to_ansi_string`, `color`, and the `palette` crate's blending,
all defined outside this module) are kept symbolic, so a token records which
escape was appended with which arguments, in order:
* `bgPlain mode c` — `c.to_ansi_string(mode, Background)` for an
  unblended stripe colour,
* `bgOverlay mode c` — the same for `c` after the 50 %-black linear-space
  overlay (`c.with_alpha(1.0).into_linear().overlay(black)`),
* `fgTok mode c` — `c.to_ansi_string(mode, Foreground)`,
* `ch c` — one display character pushed onto the buffer,
* `resetNl mode` — the styled line separator `color("&r\n", mode)`. -/
inductive Tok where
  | bgPlain (mode : Nat) (c : Color)
  | bgOverlay (mode : Nat) (c : Color)
  | fgTok (mode : Nat) (c : Color)
  | ch (c : Char)
  | resetNl (mode : Nat)
deriving DecidableEq, Repr

/-- The inputs `draw_frame` captures from its environment: the geometry, the
flattened colour cycle (`Preset::VARIANTS`, defined outside this module, so
the list is abstract here) and the colour mode (an abstract encoding
parameter). -/
structure Config where
  w : Nat
  h : Nat
  colors : List Color
  color_mode : Nat
deriving DecidableEq, Repr

/-- The character `draw_frame` pushes for cell `(x, y)`, before the
`unwrap`s: `none` models a panic of `text_lines[..].chars().nth(..).unwrap()`
or `NOTICE.chars().nth(..).unwrap()`; the out-of-box branch pushes `' '`. -/
def cellCharOpt (L : Layout) (x y : Nat) : Option Char :=
  if L.text_start_y ≤ y ∧ y < L.text_end_y ∧ L.text_start_x ≤ x ∧ x < L.text_end_x then
    (text_lines.getD (y - L.text_start_y) []).get? (x - L.text_start_x)
  else if y = L.notice_y ∧ L.notice_start_x ≤ x ∧ x < L.notice_end_x then
    NOTICE.data.get? (x - L.notice_start_x)
  else
    some ' '

/-- The switching-point condition of `draw_frame`:
`idx % block_width == 0 || x == text_start_x - border || x == text_end_x + border
|| x == notice_start_x - 1 || x == notice_end_x + 1`, with Rust's
short-circuiting `||` made explicit: the checked `usize` subtractions
`text_start_x - border` and `notice_start_x - 1` are evaluated — and can
underflow, yielding `none` (a panic under overflow checks) — only when every
disjunct before them is false. -/
def switchingPoint (L : Layout) (i border x : Nat) : Option Bool :=
  if i % L.block_width = 0 then some true
  else
    (csub L.text_start_x border).bind fun sb =>
      if x = sb then some true
      else if x = L.text_end_x + border then some true
      else
        (csub L.notice_start_x 1).bind fun ns =>
          if x = ns then some true
          else some (decide (x = L.notice_end_x + 1))

/-- The overlay condition of `draw_frame`:
`(y_text && (text_start_x - border <= x) && (x < text_end_x + border))
|| (y == notice_y && notice_start_x - 1 <= x && x < notice_end_x + 1)`,
again with the short-circuit evaluation of `&&` and `||` explicit, so each
checked `usize` subtraction is reached only when the guards before it hold. -/
def overlayGuard (L : Layout) (border x y : Nat) : Option Bool :=
  (if L.text_start_y ≤ y ∧ y < L.text_end_y then
      (csub L.text_start_x border).map fun sb =>
        decide (sb ≤ x ∧ x < L.text_end_x + border)
    else some false).bind fun left =>
    if left then some true
    else if y = L.notice_y then
      (csub L.notice_start_x 1).map fun ns =>
        decide (ns ≤ x ∧ x < L.notice_end_x + 1)
    else some false

/-- The tokens `draw_frame` appends for one cell `(x, y)` of row `y`: an
optional colour escape at a switching point (with the overlay applied inside
the text and notice boxes), then the cell's character; `none` models a panic
of an underflowing `usize` guard subtraction. `Option.get!` models the
source's character `unwrap` (shown to never fail by C10's theorem), and the
`border` subtraction `text_end_y - 1` stays truncated because every layout
built by the program has `text_end_y ≥ text_height > 1`, so it cannot
underflow. -/
noncomputable def cellToks (cfg : Config) (L : Layout) (frame x y : Nat) :
    Option (List Tok) :=
  let i := idx frame x y
  let border := 1 + if ¬(y = L.text_start_y ∨ y = L.text_end_y - 1) then 1 else 0
  (switchingPoint L i border x).bind fun sw =>
    if sw then
      let c := cfg.colors.getD (colorIndex i L.block_width cfg.colors.length) ⟨0, 0, 0⟩
      (overlayGuard L border x y).map fun ov =>
        (if ov then [Tok.bgOverlay cfg.color_mode c] else [Tok.bgPlain cfg.color_mode c])
          ++ [Tok.ch (cellCharOpt L x y).get!]
    else
      some [Tok.ch (cellCharOpt L x y).get!]

/-- The concatenated cell tokens of row `y` for the columns `x < n`, in the
source's loop order; `none` as soon as any cell panics. -/
noncomputable def cellsToks (cfg : Config) (L : Layout) (frame y : Nat) :
    Nat → Option (List Tok)
  | 0 => some []
  | n + 1 =>
    (cellsToks cfg L frame y n).bind fun init =>
      (cellToks cfg L frame n y).map fun c => init ++ c

/-- The tokens `draw_frame` appends for row `y`: the row's starting
background colour, the constant foreground colour, then the `w` cells. -/
noncomputable def rowToks (cfg : Config) (L : Layout) (frame y : Nat) :
    Option (List Tok) :=
  (cellsToks cfg L frame y cfg.w).map fun cells =>
    Tok.bgPlain cfg.color_mode
        (cfg.colors.getD (colorIndex (frame + y) L.block_width cfg.colors.length) ⟨0, 0, 0⟩)
      :: Tok.fgTok cfg.color_mode fg
      :: cells

/-- The buffer after the first `n` rows of `draw_frame`: each row is followed
by the styled newline `color("&r\n", ..)` except row `h - 1`; `none` as soon
as any row panics. -/
noncomputable def rowsToks (cfg : Config) (L : Layout) (frame : Nat) :
    Nat → Option (List Tok)
  | 0 => some []
  | n + 1 =>
    (rowsToks cfg L frame n).bind fun init =>
      (rowToks cfg L frame n).map fun row =>
        init ++ row ++ if n ≠ cfg.h - 1 then [Tok.resetNl cfg.color_mode] else []

/-- The full frame buffer of `draw_frame`: `h` rows, each followed by the
styled newline except the last; `none` when the composition panics on an
underflowing guard subtraction (reachable at terminal widths 56–59, where
`text_start_x < border`). -/
noncomputable def frameToks (cfg : Config) (L : Layout) (frame : Nat) :
    Option (List Tok) :=
  rowsToks cfg L frame cfg.h

/-- The mutable program state visible around `draw_frame` in
`start_animation`: the compositor's inputs together with the shared
cancellation flag and a timing counter, which `draw_frame` does not read. -/
structure ProgState where
  cfg : Config
  key_pressed : Bool
  elapsed_ticks : Nat

/-- Closure `draw_frame` as invoked on the program state: it reads only the
captured immutable inputs (`cfg`) and the frame counter. -/
noncomputable def drawFrameSt (s : ProgState) (frame : Nat) : Option (List Tok) :=
  frameToks s.cfg (layout s.cfg.w s.cfg.h) frame

/-- One attempt of the watcher thread to read a line from standard input
(`io::stdin().read_line(&mut input)`): `Ok(0)` is end of stream, `Ok(n)`
with `n > 0` delivers a line (an empty line is the one-byte string `"\n"`),
`Err` is a read error. -/
inductive ReadResult where
  | eof
  | line (s : String)
  | err (e : String)
deriving DecidableEq, Repr

/-- The watcher thread's state: the shared `key_pressed` flag (an
`Arc<AtomicBool>`) and whether the thread's loop has exited (`break`). -/
structure WatcherState where
  key_pressed : Bool
  done : Bool
deriving DecidableEq, Repr

/-- One iteration of the watcher's `loop` (`start_animation`): once the loop
has exited nothing further happens; `Ok(0)` is ignored and the loop retries;
`Ok(n)` with `n > 0` stores `true` and breaks; `Err` logs and retries. -/
def watcherStep (st : WatcherState) (r : ReadResult) : WatcherState :=
  if st.done then st
  else
    match r with
    | .eof => st
    | .line _ => { key_pressed := true, done := true }
    | .err _ => st

/-- The watcher run over a sequence of read results. -/
def watcherRun (st : WatcherState) : List ReadResult → WatcherState
  | [] => st
  | r :: rs => watcherRun (watcherStep st r) rs

/-- The number of `false → true` transitions of the flag along a run of the
watcher. -/
def watcherFlips (st : WatcherState) : List ReadResult → Nat
  | [] => 0
  | r :: rs =>
    (if st.key_pressed = false ∧ (watcherStep st r).key_pressed = true then 1 else 0)
      + watcherFlips (watcherStep st r) rs

/-- The driver's loop state in `start_animation`: the frame counter and
whether the loop has exited. -/
structure DriverState where
  frame : Nat
  stopped : Bool
deriving DecidableEq, Repr

/-- One tick of the driver's `loop`: draw, `frame += speed`, sleep, then
exit if the flag it loaded is set. The driver only reads the flag. -/
def driverStep (flag : Bool) (d : DriverState) : DriverState :=
  if d.stopped then d else { frame := d.frame + speed, stopped := flag }

/-- The whole concurrent system: the watcher and driver share only the
flag, held in the watcher's state. -/
structure SysState where
  watcher : WatcherState
  driver : DriverState
deriving DecidableEq, Repr

/-- An interleaving event: a read completing on the watcher thread, or a
driver tick. -/
inductive SysEvent where
  | read (r : ReadResult)
  | tick
deriving DecidableEq, Repr

/-- One interleaved step of the system: a read is handled by the watcher
alone; a tick runs the driver, which reads (never writes) the flag. -/
def sysStep (s : SysState) : SysEvent → SysState
  | .read r => { s with watcher := watcherStep s.watcher r }
  | .tick => { s with driver := driverStep s.watcher.key_pressed s.driver }

/-- The frames drawn by the driver's `loop` (clear screen, `draw_frame`,
`frame += speed`, sleep, poll the flag and break when set), given the flag
value the driver observes at each tick; `fuel` bounds the observed ticks,
and a `none` entry marks a composition that panicked. -/
noncomputable def animLoop (cfg : Config) (L : Layout) (flagAt : Nat → Bool) :
    Nat → Nat → List (Option (List Tok))
  | _, 0 => []
  | frame, fuel + 1 =>
    frameToks cfg L frame
      :: if flagAt frame then [] else animLoop cfg L flagAt (frame + speed) fuel

/-- Function `start_animation`, up to its effects: the terminal geometry query result
comes in as `termSize` (`terminal_size()` returns `None` when the size
cannot be determined, and `start_animation` propagates that as an error via
`.context("failed to get terminal size")?` before any frame is drawn);
on success the driver loop runs and the drawn frames are returned. -/
noncomputable def start_animation (termSize : Option (Nat × Nat))
    (colors : List Color) (color_mode : Nat) (flagAt : Nat → Bool) (fuel : Nat) :
    Except String (List (Option (List Tok))) :=
  match termSize with
  | none => .error "failed to get terminal size"
  | some (w, h) =>
    let cfg : Config := { w, h, colors, color_mode }
    .ok (animLoop cfg (layout w h) flagAt 0 fuel)

/-- The Frame Compositor's character-selection rule as the specification
words it: if the cell falls strictly inside the art box and the
corresponding art-text row has a character at that column, emit that
character; else if inside the notice box (on the notice row) and the notice
string has a character at that column, emit that character; else emit a
space. -/
def specCharAt (L : Layout) (x y : Nat) : Char :=
  if (L.text_start_y ≤ y ∧ y < L.text_end_y ∧ L.text_start_x ≤ x ∧ x < L.text_end_x)
      ∧ ((text_lines.getD (y - L.text_start_y) []).get? (x - L.text_start_x)).isSome then
    ((text_lines.getD (y - L.text_start_y) []).get? (x - L.text_start_x)).getD ' '
  else if (y = L.notice_y ∧ L.notice_start_x ≤ x ∧ x < L.notice_end_x)
      ∧ (NOTICE.data.get? (x - L.notice_start_x)).isSome then
    (NOTICE.data.get? (x - L.notice_start_x)).getD ' '
  else
    ' '

/-- Whether a token is the styled line separator. -/
def isSep : Tok → Bool
  | .resetNl _ => true
  | _ => false

/-- Whether a token is a display character. -/
def isCh : Tok → Bool
  | .ch _ => true
  | _ => false

/-- The number of display characters in a token list. -/
def charCount (ts : List Tok) : Nat := ts.countP isCh

/-- The number of line separators in a token list. -/
def sepCount (ts : List Tok) : Nat := ts.countP isSep

/-- Splitting a buffer at its line separators into rows (the separators are
dropped); a buffer with `n` separators yields `n + 1` rows. -/
def splitRows : List Tok → List (List Tok)
  | [] => [[]]
  | t :: ts =>
    if isSep t then [] :: splitRows ts
    else
      match splitRows ts with
      | [] => [[t]]
      | r :: rs => (t :: r) :: rs


/-! ## Evaluated facts about the fixed art block and notice -/

/-- The trimmed art block is 56 columns wide. -/
theorem text_width_eval : text_width = 56 := by decide

/-- The trimmed art block is 6 rows high. -/
theorem text_height_eval : text_height = 6 := by decide

/-- The notice string has 23 characters. -/
theorem notice_len_eval : NOTICE.length = 23 := by decide

/-- Every line of the trimmed art block has the full width. -/
theorem text_lines_width : ∀ l ∈ text_lines, l.length = text_width := by decide

/-! ## Helper lemmas -/

theorem csub_pos {a b : Nat} (h : b ≤ a) : csub a b = some (a - b) := if_pos h

theorem csub_neg {a b : Nat} (h : ¬b ≤ a) : csub a b = none := if_neg h

/-- The `do` block of `layoutChecked`, written as explicit binds. -/
theorem layoutChecked_eq (w h : Nat) :
    layoutChecked w h =
      (csub (h / 2) (text_height / 2)).bind fun text_start_y =>
      (csub (w / 2) (text_width / 2)).bind fun text_start_x =>
      (csub w NOTICE.length).bind fun t =>
      (csub t 1).bind fun notice_start_x =>
      (csub w 1).bind fun notice_end_x =>
      (csub h 1).bind fun notice_y =>
      some ⟨w / BLOCKS, text_start_y, text_start_y + text_height, text_start_x,
            text_start_x + text_width, notice_start_x, notice_end_x, notice_y⟩ := rfl

theorem layoutChecked_none_of_h (w h : Nat) (hh : h < 6) : layoutChecked w h = none := by
  rw [layoutChecked_eq, text_height_eval, csub_neg (by omega)]
  rfl

theorem layoutChecked_none_of_w (w h : Nat) (hw : w < 56) : layoutChecked w h = none := by
  rw [layoutChecked_eq, text_width_eval]
  cases e : csub (h / 2) (text_height / 2) with
  | none => rfl
  | some v =>
    rw [Option.some_bind, csub_neg (by omega)]
    rfl

theorem layoutChecked_some (w h : Nat) (hw : 56 ≤ w) (hh : 6 ≤ h) :
    (layoutChecked w h).isSome := by
  rw [layoutChecked_eq, text_width_eval, text_height_eval]
  rw [csub_pos (show (6 : Nat) / 2 ≤ h / 2 by omega)]
  simp only [Option.some_bind]
  rw [csub_pos (show (56 : Nat) / 2 ≤ w / 2 by omega)]
  simp only [Option.some_bind]
  rw [csub_pos (show NOTICE.length ≤ w by rw [notice_len_eval]; omega)]
  simp only [Option.some_bind]
  rw [csub_pos (show (1 : Nat) ≤ w - NOTICE.length by rw [notice_len_eval]; omega)]
  simp only [Option.some_bind]
  rw [csub_pos (show (1 : Nat) ≤ w by omega)]
  simp only [Option.some_bind]
  rw [csub_pos (show (1 : Nat) ≤ h by omega)]
  simp only [Option.some_bind, Option.isSome_some]

/-- The sine of 4 radians is negative (4 lies between π and 2π). -/
theorem sin_four_neg : Real.sin 4 < 0 := by
  have h1 : Real.sin ((4 : ℝ) - 2 * Real.pi) = Real.sin 4 := Real.sin_sub_two_pi 4
  have h2 : Real.pi < 3.15 := Real.pi_lt_d2
  have h3 : (3 : ℝ) < Real.pi := Real.pi_gt_three
  rw [← h1]
  apply Real.sin_neg_of_neg_of_neg_pi_lt <;> nlinarith

/-- At `frame = 0`, `y = 4` the sine term is `2 sin 4`. -/
theorem waveTerm_zero_four : waveTerm 0 4 = 2 * Real.sin 4 := by
  unfold waveTerm
  norm_num

/-- At the cell `(0, 0)` of frame `0` the wave index is `0`. -/
theorem idx_zero : idx 0 0 0 = 0 := by
  unfold idx waveNat waveTerm
  norm_num

theorem watcherStep_flag_mono (st : WatcherState) (r : ReadResult)
    (h : st.key_pressed = true) : (watcherStep st r).key_pressed = true := by
  unfold watcherStep
  split
  · exact h
  · cases r <;> simp [h]

theorem watcherFlips_of_set (st : WatcherState) (rs : List ReadResult)
    (h : st.key_pressed = true) : watcherFlips st rs = 0 := by
  induction rs generalizing st with
  | nil => rfl
  | cons r rs ih =>
    have h' := watcherStep_flag_mono st r h
    simp [watcherFlips, h, ih _ h']

theorem watcherFlips_le_one (st : WatcherState) (rs : List ReadResult) :
    watcherFlips st rs ≤ 1 := by
  induction rs generalizing st with
  | nil => simp [watcherFlips]
  | cons r rs ih =>
    by_cases h : (watcherStep st r).key_pressed = true
    · have h0 : watcherFlips (watcherStep st r) rs = 0 := watcherFlips_of_set _ _ h
      simp only [watcherFlips, h0]
      split_ifs <;> omega
    · simp only [watcherFlips]
      have hni : ¬(st.key_pressed = false ∧ (watcherStep st r).key_pressed = true) :=
        fun hc => h hc.2
      rw [if_neg hni]
      simpa using ih (watcherStep st r)

/-- Every in-box art lookup succeeds, for any layout whose art box has the
art block's dimensions. -/
theorem art_lookup_isSome (L : Layout) (x y : Nat)
    (hEy : L.text_end_y = L.text_start_y + text_height)
    (hEx : L.text_end_x = L.text_start_x + text_width)
    (hy1 : L.text_start_y ≤ y) (hy2 : y < L.text_end_y)
    (hx1 : L.text_start_x ≤ x) (hx2 : x < L.text_end_x) :
    ((text_lines.getD (y - L.text_start_y) []).get? (x - L.text_start_x)).isSome := by
  have hth : text_height = text_lines.length := rfl
  have hyl : y - L.text_start_y < text_lines.length := by omega
  have hmem : text_lines.getD (y - L.text_start_y) [] ∈ text_lines := by
    rw [List.getD_eq_getElem _ _ hyl]
    exact List.getElem_mem hyl
  have hlen : (text_lines.getD (y - L.text_start_y) []).length = text_width :=
    text_lines_width _ hmem
  have hxl : x - L.text_start_x < (text_lines.getD (y - L.text_start_y) []).length := by
    rw [hlen]; omega
  rw [List.get?_eq_getElem?, List.getElem?_eq_getElem hxl]
  rfl

/-- Every in-box notice lookup succeeds, for the program's layout at any
geometry. -/
theorem notice_lookup_isSome (w h x : Nat)
    (hx2 : x < (layout w h).notice_end_x) :
    (NOTICE.data.get? (x - (layout w h).notice_start_x)).isSome := by
  have hnd : NOTICE.data.length = 23 := by decide
  have hns : (layout w h).notice_start_x = w - NOTICE.length - 1 := rfl
  have hne : (layout w h).notice_end_x = w - 1 := rfl
  have hnl : NOTICE.length = 23 := notice_len_eval
  have hlt : x - (layout w h).notice_start_x < NOTICE.data.length := by
    rw [hns, hnl] at *
    omega
  rw [List.get?_eq_getElem?, List.getElem?_eq_getElem hlt]
  rfl

theorem splitRows_cons_of_sep (t : Tok) (ts : List Tok) (h : isSep t = true) :
    splitRows (t :: ts) = [] :: splitRows ts := by
  conv_lhs => rw [splitRows]
  rw [if_pos h]

theorem splitRows_cons_of_nonsep (t : Tok) (ts : List Tok) (h : ¬(isSep t = true)) :
    splitRows (t :: ts) =
      match splitRows ts with
      | [] => [[t]]
      | r :: rs => (t :: r) :: rs := by
  conv_lhs => rw [splitRows]
  rw [if_neg h]

theorem splitRows_ne_nil (ts : List Tok) : splitRows ts ≠ [] := by
  induction ts with
  | nil => simp [splitRows]
  | cons t ts ih =>
    by_cases h : isSep t = true
    · rw [splitRows_cons_of_sep t ts h]
      simp
    · rw [splitRows_cons_of_nonsep t ts h]
      cases e : splitRows ts <;> simp

/-- A buffer with `n` separators splits into `n + 1` rows. -/
theorem splitRows_length (ts : List Tok) : (splitRows ts).length = sepCount ts + 1 := by
  induction ts with
  | nil => rfl
  | cons t ts ih =>
    rw [show sepCount (t :: ts) = sepCount ts + if isSep t then 1 else 0 from
      List.countP_cons isSep t ts]
    by_cases h : isSep t = true
    · rw [splitRows_cons_of_sep t ts h, if_pos h]
      simp [ih]
    · rw [splitRows_cons_of_nonsep t ts h, if_neg h]
      cases e : splitRows ts with
      | nil => exact absurd e (splitRows_ne_nil ts)
      | cons r rs =>
        have hl := ih
        rw [e] at hl
        simpa using hl

theorem splitRows_sepFree (r : List Tok) (h : sepCount r = 0) : splitRows r = [r] := by
  induction r with
  | nil => rfl
  | cons t ts ih =>
    rw [show sepCount (t :: ts) = sepCount ts + if isSep t then 1 else 0 from
      List.countP_cons isSep t ts] at h
    have h1 : ¬(isSep t = true) := by
      intro hb
      rw [if_pos hb] at h
      omega
    have h2 : sepCount ts = 0 := by
      rw [if_neg h1] at h
      omega
    rw [splitRows_cons_of_nonsep t ts h1, ih h2]

theorem splitRows_append_sep (m : Nat) (r ts : List Tok) (h : sepCount r = 0) :
    splitRows (r ++ Tok.resetNl m :: ts) = r :: splitRows ts := by
  induction r with
  | nil =>
    simp only [List.nil_append]
    exact splitRows_cons_of_sep _ ts rfl
  | cons t r' ih =>
    rw [show sepCount (t :: r') = sepCount r' + if isSep t then 1 else 0 from
      List.countP_cons isSep t r'] at h
    have h1 : ¬(isSep t = true) := by
      intro hb
      rw [if_pos hb] at h
      omega
    have h2 : sepCount r' = 0 := by
      rw [if_neg h1] at h
      omega
    rw [List.cons_append, splitRows_cons_of_nonsep t _ h1, ih h2]

/-- A successfully composed cell contributes exactly one display character
and no separator. -/
theorem cellToks_counts (cfg : Config) (L : Layout) (frame x y : Nat) (c : List Tok)
    (h : cellToks cfg L frame x y = some c) : charCount c = 1 ∧ sepCount c = 0 := by
  simp only [cellToks, Option.bind_eq_some] at h
  obtain ⟨sw, _, h⟩ := h
  cases sw with
  | false =>
    rw [if_neg (by simp)] at h
    injection h with h
    subst h
    simp [charCount, sepCount, isCh, isSep]
  | true =>
    rw [if_pos rfl] at h
    rw [Option.map_eq_some'] at h
    obtain ⟨ov, _, h⟩ := h
    subst h
    cases ov <;>
      simp [charCount, sepCount, isCh, isSep, List.countP_append, List.countP_cons]

/-- The first `n` cells of a successfully composed row contribute exactly
`n` display characters and no separator. -/
theorem cellsToks_counts (cfg : Config) (L : Layout) (frame y : Nat) :
    ∀ (n : Nat) (cs : List Tok), cellsToks cfg L frame y n = some cs →
      charCount cs = n ∧ sepCount cs = 0 := by
  intro n
  induction n with
  | zero =>
    intro cs h
    simp only [cellsToks, Option.some.injEq] at h
    subst h
    simp [charCount, sepCount]
  | succ n ih =>
    intro cs h
    simp only [cellsToks, Option.bind_eq_some, Option.map_eq_some'] at h
    obtain ⟨init, hinit, c, hc, h'⟩ := h
    subst h'
    have h1 := ih init hinit
    have h2 := cellToks_counts cfg L frame n y c hc
    simp only [charCount, sepCount, List.countP_append] at *
    omega

/-- A successfully composed row carries exactly `w` display characters and
no separator of its own. -/
theorem rowToks_counts (cfg : Config) (L : Layout) (frame y : Nat) (row : List Tok)
    (h : rowToks cfg L frame y = some row) :
    charCount row = cfg.w ∧ sepCount row = 0 := by
  simp only [rowToks, Option.map_eq_some'] at h
  obtain ⟨cells, hcells, h'⟩ := h
  subst h'
  have h1 := cellsToks_counts cfg L frame y cfg.w cells hcells
  constructor
  · rw [charCount, List.countP_cons_of_neg _ _ (by simp [isCh]),
      List.countP_cons_of_neg _ _ (by simp [isCh])]
    exact h1.1
  · rw [sepCount, List.countP_cons_of_neg _ _ (by simp [isSep]),
      List.countP_cons_of_neg _ _ (by simp [isSep])]
    exact h1.2

/-- Every row before `n` of a successfully composed buffer was itself
successfully composed. -/
theorem rowsToks_elim (cfg : Config) (L : Layout) (frame : Nat) :
    ∀ (n : Nat) (buf : List Tok), rowsToks cfg L frame n = some buf →
      ∀ y, y < n → (rowToks cfg L frame y).isSome := by
  intro n
  induction n with
  | zero => intro buf _ y hy; omega
  | succ n ih =>
    intro buf h y hy
    simp only [rowsToks, Option.bind_eq_some, Option.map_eq_some'] at h
    obtain ⟨init, hinit, row, hrow, _⟩ := h
    rcases Nat.lt_succ_iff_lt_or_eq.mp hy with hy' | rfl
    · exact ih init hinit y hy'
    · rw [hrow]
      rfl

/-- Splitting a successfully composed prefix of rows (all strictly before
the last row, so each carries its trailing separator) followed by any tail
yields those rows and then the split tail. -/
theorem rowsToks_split (cfg : Config) (L : Layout) (frame : Nat) :
    ∀ (n : Nat) (buf : List Tok), n ≤ cfg.h - 1 → rowsToks cfg L frame n = some buf →
      ∀ tail, splitRows (buf ++ tail)
        = ((List.range n).map fun y => (rowToks cfg L frame y).getD []) ++ splitRows tail := by
  intro n
  induction n with
  | zero =>
    intro buf _ h tail
    simp only [rowsToks, Option.some.injEq] at h
    subst h
    simp
  | succ n ih =>
    intro buf hle h tail
    simp only [rowsToks, Option.bind_eq_some, Option.map_eq_some'] at h
    obtain ⟨init, hinit, row, hrow, h'⟩ := h
    have hne : n ≠ cfg.h - 1 := by omega
    rw [if_pos hne] at h'
    subst h'
    have hsep : sepCount row = 0 := (rowToks_counts cfg L frame n row hrow).2
    rw [List.append_assoc, List.append_assoc, List.singleton_append,
      ih init (by omega) hinit (row ++ Tok.resetNl cfg.color_mode :: tail),
      splitRows_append_sep _ _ _ hsep,
      List.range_succ, List.map_append]
    simp [hrow]

/-- A successfully composed frame buffer splits into exactly its `h` rows,
in order. -/
theorem frameToks_split (cfg : Config) (L : Layout) (frame : Nat) (hh : 1 ≤ cfg.h)
    (buf : List Tok) (h : frameToks cfg L frame = some buf) :
    splitRows buf = (List.range cfg.h).map fun y => (rowToks cfg L frame y).getD [] := by
  obtain ⟨m, hm⟩ : ∃ m, cfg.h = m + 1 := ⟨cfg.h - 1, by omega⟩
  unfold frameToks at h
  rw [hm] at h ⊢
  simp only [rowsToks, Option.bind_eq_some, Option.map_eq_some'] at h
  obtain ⟨init, hinit, row, hrow, h'⟩ := h
  have hlast : ¬(m ≠ cfg.h - 1) := by omega
  rw [if_neg hlast] at h'
  subst h'
  rw [List.append_nil,
    rowsToks_split cfg L frame m init (by omega) hinit row,
    splitRows_sepFree row (rowToks_counts cfg L frame m row hrow).2,
    List.range_succ, List.map_append]
  simp [hrow]

/-- The switching-point guard evaluates successfully whenever its checked
subtractions cannot underflow. -/
theorem switchingPoint_isSome (L : Layout) (i border x : Nat)
    (h1 : border ≤ L.text_start_x) (h2 : 1 ≤ L.notice_start_x) :
    (switchingPoint L i border x).isSome := by
  unfold switchingPoint
  simp only [csub_pos h1, csub_pos h2, Option.some_bind]
  split_ifs <;> simp

/-- The overlay guard evaluates successfully whenever its checked
subtractions cannot underflow. -/
theorem overlayGuard_isSome (L : Layout) (border x y : Nat)
    (h1 : border ≤ L.text_start_x) (h2 : 1 ≤ L.notice_start_x) :
    (overlayGuard L border x y).isSome := by
  unfold overlayGuard
  simp only [csub_pos h1, csub_pos h2, Option.map_some']
  split_ifs <;> simp only [Option.some_bind] <;> split_ifs <;> rfl

/-- A cell composes successfully whenever the guard subtractions cannot
underflow: `text_start_x ≥ 2` (`border` is at most 2) and
`notice_start_x ≥ 1`. -/
theorem cellToks_isSome (cfg : Config) (L : Layout) (frame x y : Nat)
    (h1 : 2 ≤ L.text_start_x) (h2 : 1 ≤ L.notice_start_x) :
    (cellToks cfg L frame x y).isSome := by
  have hb : (1 + if ¬(y = L.text_start_y ∨ y = L.text_end_y - 1) then 1 else 0)
      ≤ L.text_start_x := by
    split_ifs <;> omega
  obtain ⟨sw, hsw⟩ := Option.isSome_iff_exists.mp
    (switchingPoint_isSome L (idx frame x y)
      (1 + if ¬(y = L.text_start_y ∨ y = L.text_end_y - 1) then 1 else 0) x hb h2)
  obtain ⟨ov, hov⟩ := Option.isSome_iff_exists.mp
    (overlayGuard_isSome L
      (1 + if ¬(y = L.text_start_y ∨ y = L.text_end_y - 1) then 1 else 0) x y hb h2)
  simp only [cellToks, hsw, hov, Option.some_bind, Option.map_some']
  cases sw <;> simp

theorem cellsToks_isSome (cfg : Config) (L : Layout) (frame y : Nat)
    (h1 : 2 ≤ L.text_start_x) (h2 : 1 ≤ L.notice_start_x) :
    ∀ n, (cellsToks cfg L frame y n).isSome := by
  intro n
  induction n with
  | zero => rfl
  | succ n ih =>
    obtain ⟨init, hinit⟩ := Option.isSome_iff_exists.mp ih
    obtain ⟨c, hc⟩ := Option.isSome_iff_exists.mp (cellToks_isSome cfg L frame n y h1 h2)
    simp only [cellsToks, hinit, hc, Option.some_bind, Option.map_some']
    rfl

theorem rowToks_isSome (cfg : Config) (L : Layout) (frame y : Nat)
    (h1 : 2 ≤ L.text_start_x) (h2 : 1 ≤ L.notice_start_x) :
    (rowToks cfg L frame y).isSome := by
  obtain ⟨cells, hcells⟩ := Option.isSome_iff_exists.mp
    (cellsToks_isSome cfg L frame y h1 h2 cfg.w)
  simp only [rowToks, hcells, Option.map_some']
  rfl

theorem rowsToks_isSome (cfg : Config) (L : Layout) (frame : Nat)
    (h1 : 2 ≤ L.text_start_x) (h2 : 1 ≤ L.notice_start_x) :
    ∀ n, (rowsToks cfg L frame n).isSome := by
  intro n
  induction n with
  | zero => rfl
  | succ n ih =>
    obtain ⟨init, hinit⟩ := Option.isSome_iff_exists.mp ih
    obtain ⟨row, hrow⟩ := Option.isSome_iff_exists.mp (rowToks_isSome cfg L frame n h1 h2)
    simp only [rowsToks, hinit, hrow, Option.some_bind, Option.map_some']
    rfl

/-- The frame composition succeeds whenever the guard subtractions cannot
underflow — in particular for every layout with `text_start_x ≥ 2`
(terminal width ≥ 60) and `notice_start_x ≥ 1`. -/
theorem frameToks_isSome (cfg : Config) (L : Layout) (frame : Nat)
    (h1 : 2 ≤ L.text_start_x) (h2 : 1 ≤ L.notice_start_x) :
    (frameToks cfg L frame).isSome :=
  rowsToks_isSome cfg L frame h1 h2 cfg.h

/-! ## The claims -/

/-- C1, counterexample: the claim that the colour-selection index equals
`frame + x + y + floor(2 * sin(y + 0.5 * frame))` with the mathematical
floor fails at `frame = 0`, `x = 0`, `y = 4` (a valid cell of an 80×24
terminal): there `2 sin 4 ≈ -1.51`, whose mathematical floor is `-2`, but
Rust's `as usize` saturates the negative value to `0`, so the code computes
`4`, not `2`. -/
theorem wave_index_math_floor_false :
    ((idx 0 0 4 : Nat) : ℤ) ≠ 0 + 0 + 4 + ⌊waveTerm 0 4⌋ := by
  have hneg : waveTerm 0 4 < 0 := by
    rw [waveTerm_zero_four]
    nlinarith [sin_four_neg]
  have hfloor : ⌊waveTerm 0 4⌋ < 0 := Int.floor_lt.mpr (by exact_mod_cast hneg)
  have hnat : waveNat 0 4 = 0 := Nat.floor_eq_zero.mpr (by linarith)
  have h4 : idx 0 0 4 = 4 := by
    unfold idx
    rw [hnat]
  rw [h4]
  omega

/-- C1, amended: for every frame and cell, the index the Frame Compositor
uses for colour selection equals
`frame + x + y + max(floor(2 * sin(y + 0.5 * frame)), 0)` — the sine term is
truncated by Rust's saturating `f64`-to-`usize` cast, which clamps negative
values to `0` instead of flooring them. -/
theorem wave_index_saturating_cast (frame x y : Nat) :
    ((idx frame x y : Nat) : ℤ) = (frame : ℤ) + x + y + max ⌊waveTerm frame y⌋ 0 := by
  unfold idx waveNat
  rw [← Int.floor_toNat (waveTerm frame y)]
  push_cast [Int.toNat_eq_max]
  ring

/-- C2: the Frame Compositor is deterministic and reads no mutable shared
state: two program states that agree on the compositor's captured inputs
(geometry, colour cycle, colour mode) — but may differ arbitrarily in the
cancellation flag and in timing — produce byte-identical frame buffers, and
re-evaluation on the same state reproduces the same buffer. -/
theorem draw_frame_deterministic (s t : ProgState) (frame : Nat) (hcfg : s.cfg = t.cfg) :
    drawFrameSt s frame = drawFrameSt s frame ∧ drawFrameSt s frame = drawFrameSt t frame := by
  unfold drawFrameSt
  rw [hcfg]
  exact ⟨rfl, rfl⟩

/-- C2, witness: two states differing only in the cancellation flag and the
timing counter yield the same frame buffer. -/
theorem draw_frame_deterministic_witness :
    (ProgState.mk ⟨80, 24, [⟨255, 0, 0⟩], 0⟩ false 0).cfg
      = (ProgState.mk ⟨80, 24, [⟨255, 0, 0⟩], 0⟩ true 17).cfg
    ∧ drawFrameSt ⟨⟨80, 24, [⟨255, 0, 0⟩], 0⟩, false, 0⟩ 6
      = drawFrameSt ⟨⟨80, 24, [⟨255, 0, 0⟩], 0⟩, true, 17⟩ 6 :=
  ⟨rfl, (draw_frame_deterministic _ _ 6 rfl).2⟩

/-- C3: with `block_width ≥ 1` and a non-empty ColorCycle (the documented
invariants), both colour lookups of the Frame Compositor — the per-cell
stripe colour at index `(idx / block_width) mod len` and the per-row
starting colour at index `((frame + y) / block_width) mod len` — are valid
indices, for every frame and cell. -/
theorem color_lookup_in_bounds (frame x y block_width len : Nat)
    (_hbw : 1 ≤ block_width) (hlen : 1 ≤ len) :
    colorIndex (idx frame x y) block_width len < len ∧
    colorIndex (frame + y) block_width len < len :=
  ⟨Nat.mod_lt _ hlen, Nat.mod_lt _ hlen⟩

/-- C3, witness: the stripe-colour index at frame 0, cell (0, 0) with
`block_width = 8` and a 3-colour cycle is in bounds. -/
theorem color_lookup_in_bounds_witness :
    ((1 : Nat) ≤ 8 ∧ (1 : Nat) ≤ 3) ∧ colorIndex (idx 0 0 0) 8 3 < 3 :=
  ⟨⟨by decide, by decide⟩, (color_lookup_in_bounds 0 0 0 8 3 (by decide) (by decide)).1⟩

/-- C4, counterexample: at `w = 10`, `h = 24` the terminal is narrower than
the art block (width 56) and the notice, and the layout computation does
not complete: the unsigned subtractions underflow (`none`), i.e. a panic
under Rust's overflow checks — not a benign "negative box". -/
theorem layout_small_terminal_underflows :
    layoutChecked 10 24 = none ∧ 10 < text_width := by decide

/-- C4, amended: the Layout Calculator's `usize` arithmetic completes
without underflow exactly when the terminal is at least as large as the art
block (`w ≥ 56 ∧ h ≥ 6`, which also covers the notice, needing only
`w ≥ 24`); for every smaller terminal one of the unsigned subtractions
underflows, so computing the boxes is a failure there, not an undefined
visual result. -/
theorem layout_completes_iff_content_fits (w h : Nat) :
    (layoutChecked w h).isSome ↔ text_width ≤ w ∧ text_height ≤ h := by
  rw [text_width_eval, text_height_eval]
  constructor
  · intro hs
    by_contra hc
    push_neg at hc
    rcases le_or_lt 56 w with hw | hw
    · rw [layoutChecked_none_of_h w h (hc hw)] at hs
      simp at hs
    · rw [layoutChecked_none_of_w w h hw] at hs
      simp at hs
  · rintro ⟨hw, hh⟩
    exact layoutChecked_some w h hw hh

/-- C5, counterexample: at `w = 80`, `h = 24` the program computes
`text_start_x = 12`, `text_end_x = 68` and `notice_start_x = 56` — the
spec's scenario values `13`, `67`, `55` (derived from an art width of 54
and a notice length of 24) are wrong: the art block is 56 columns wide and
the notice is 23 characters. -/
theorem scenario_80x24_spec_numbers_false :
    (layout 80 24).text_start_x = 12 ∧ (layout 80 24).text_end_x = 68 ∧
    (layout 80 24).notice_start_x = 56 ∧
    ¬((layout 80 24).text_start_x = 13 ∧ (layout 80 24).text_end_x = 67 ∧
      (layout 80 24).notice_start_x = 55) := by decide

/-- C5, amended: at `w = 80`, `h = 24` the layout is `block_width = 8`,
`text_start_y = 9`, `text_end_y = 15`, `text_start_x = 12`,
`text_end_x = 68` (art width 56), `notice_start_x = 56`,
`notice_end_x = 79` (notice length 23); at `frame = 0`, `x = 0`, `y = 0`
the wave index is `0` and the selected stripe colour is `cycle[0]`. -/
theorem scenario_80x24 :
    layout 80 24 = ⟨8, 9, 15, 12, 68, 56, 79, 23⟩ ∧ idx 0 0 0 = 0 ∧
    ∀ (colors : List Color), 1 ≤ colors.length →
      colors.getD (colorIndex (idx 0 0 0) (layout 80 24).block_width colors.length) ⟨0, 0, 0⟩
        = colors.getD 0 ⟨0, 0, 0⟩ := by
  refine ⟨by decide, idx_zero, fun colors hlen => ?_⟩
  rw [idx_zero]
  unfold colorIndex
  norm_num

/-- C5, witness: the amended scenario instantiated on a one-colour cycle. -/
theorem scenario_80x24_witness :
    1 ≤ ([⟨255, 0, 0⟩] : List Color).length ∧
    ([⟨255, 0, 0⟩] : List Color).getD
        (colorIndex (idx 0 0 0) (layout 80 24).block_width
          ([⟨255, 0, 0⟩] : List Color).length) ⟨0, 0, 0⟩
      = ([⟨255, 0, 0⟩] : List Color).getD 0 ⟨0, 0, 0⟩ :=
  ⟨by decide, scenario_80x24.2.2 [⟨255, 0, 0⟩] (by decide)⟩

/-- C6: for every geometry and every cell, the character the Frame
Compositor emits is exactly the spec's selection rule: the art character if
the cell lies strictly inside the art box and the art row has a character
at that column, else the notice character if the cell lies inside the
notice box and the notice has one, else a space — and the emitted character
always exists (no panic). -/
theorem char_selection_matches_spec (w h x y : Nat) :
    cellCharOpt (layout w h) x y = some (specCharAt (layout w h) x y) := by
  unfold cellCharOpt specCharAt
  by_cases hA : (layout w h).text_start_y ≤ y ∧ y < (layout w h).text_end_y ∧
      (layout w h).text_start_x ≤ x ∧ x < (layout w h).text_end_x
  · have hs : ((text_lines.getD (y - (layout w h).text_start_y) []).get?
        (x - (layout w h).text_start_x)).isSome :=
      art_lookup_isSome _ x y rfl rfl hA.1 hA.2.1 hA.2.2.1 hA.2.2.2
    rw [if_pos hA, if_pos ⟨hA, hs⟩]
    obtain ⟨c, hc⟩ := Option.isSome_iff_exists.mp hs
    rw [hc]
    rfl
  · have hA' : ¬(((layout w h).text_start_y ≤ y ∧ y < (layout w h).text_end_y ∧
        (layout w h).text_start_x ≤ x ∧ x < (layout w h).text_end_x) ∧
        ((text_lines.getD (y - (layout w h).text_start_y) []).get?
          (x - (layout w h).text_start_x)).isSome) := fun hc => hA hc.1
    rw [if_neg hA, if_neg hA']
    by_cases hN : y = (layout w h).notice_y ∧ (layout w h).notice_start_x ≤ x ∧
        x < (layout w h).notice_end_x
    · have hs : (NOTICE.data.get? (x - (layout w h).notice_start_x)).isSome :=
        notice_lookup_isSome w h x hN.2.2
      rw [if_pos hN, if_pos ⟨hN, hs⟩]
      obtain ⟨c, hc⟩ := Option.isSome_iff_exists.mp hs
      rw [hc]
      rfl
    · have hN' : ¬((y = (layout w h).notice_y ∧ (layout w h).notice_start_x ≤ x ∧
          x < (layout w h).notice_end_x) ∧
          (NOTICE.data.get? (x - (layout w h).notice_start_x)).isSome) := fun hc => hN hc.1
      rw [if_neg hN, if_neg hN']

/-- C7: the cancellation-flag protocol. A successful line read — including
an empty line, i.e. any string — on a watcher that has not terminated sets
the flag and terminates the watcher; a terminated watcher never changes
state again; end-of-stream and read errors leave the watcher unchanged (it
retries); a watcher whose flag is set never flips it again, so along any
run the flag is set at most once; and no interleaved step of the watcher or
the driver ever returns a set flag to false. -/
theorem cancellation_flag_protocol :
    (∀ (st : WatcherState) (s : String), st.done = false →
      watcherStep st (.line s) = ⟨true, true⟩) ∧
    (∀ (st : WatcherState) (r : ReadResult), st.done = true → watcherStep st r = st) ∧
    (∀ st : WatcherState, watcherStep st .eof = st) ∧
    (∀ (st : WatcherState) (e : String), watcherStep st (.err e) = st) ∧
    (∀ (st : WatcherState) (rs : List ReadResult), st.key_pressed = true →
      watcherFlips st rs = 0) ∧
    (∀ (st : WatcherState) (rs : List ReadResult), watcherFlips st rs ≤ 1) ∧
    (∀ (s : SysState) (ev : SysEvent), s.watcher.key_pressed = true →
      (sysStep s ev).watcher.key_pressed = true) := by
  refine ⟨fun st s hd => ?_, fun st r hd => ?_, fun st => ?_, fun st e => ?_,
    watcherFlips_of_set, watcherFlips_le_one, fun s ev hk => ?_⟩
  · simp [watcherStep, hd]
  · simp [watcherStep, hd]
  · unfold watcherStep
    split <;> rfl
  · unfold watcherStep
    split <;> rfl
  · cases ev with
    | read r => exact watcherStep_flag_mono _ r hk
    | tick => exact hk

/-- C7, witness: an empty line (a lone newline) read by the initial watcher
sets the flag and terminates the watcher. -/
theorem cancellation_flag_protocol_witness :
    (WatcherState.mk false false).done = false ∧
    watcherStep ⟨false, false⟩ (.line "\n") = ⟨true, true⟩ :=
  ⟨rfl, cancellation_flag_protocol.1 ⟨false, false⟩ "\n" rfl⟩

/-- C8: when the terminal geometry query cannot determine the terminal
size, `start_animation` propagates the failure immediately — the result is
the error, for any colour cycle, colour mode, flag schedule and loop fuel,
and it is never a success carrying rendered frames. -/
theorem start_animation_size_failure (colors : List Color) (mode : Nat)
    (flagAt : Nat → Bool) (fuel : Nat) :
    start_animation none colors mode flagAt fuel = .error "failed to get terminal size" ∧
    ∀ frames, start_animation none colors mode flagAt fuel ≠ .ok frames := by
  refine ⟨rfl, fun frames h => ?_⟩
  simp [start_animation] at h

/-- C9: for every frame, whenever the Frame Compositor completes (none of
its checked `usize` guard subtractions underflows — at widths 56–59 with
`text_start_x < border` it panics instead and composes no buffer), the
composed buffer splits at its styled separators into exactly the `h` rows in
order; there are exactly `h - 1` separators (one after every row but the
last, none after the last); and every row carries exactly `w` display
characters and no separator of its own. -/
theorem frame_buffer_row_structure (cfg : Config) (L : Layout) (frame : Nat)
    (hh : 1 ≤ cfg.h) (hs : (frameToks cfg L frame).isSome) :
    splitRows ((frameToks cfg L frame).getD [])
      = (List.range cfg.h).map (fun y => (rowToks cfg L frame y).getD []) ∧
    (splitRows ((frameToks cfg L frame).getD [])).length = cfg.h ∧
    sepCount ((frameToks cfg L frame).getD []) = cfg.h - 1 ∧
    ∀ r ∈ splitRows ((frameToks cfg L frame).getD []),
      charCount r = cfg.w ∧ sepCount r = 0 := by
  obtain ⟨buf, hbuf⟩ := Option.isSome_iff_exists.mp hs
  rw [hbuf]
  simp only [Option.getD_some]
  have hsplit := frameToks_split cfg L frame hh buf hbuf
  have hlen : (splitRows buf).length = cfg.h := by
    rw [hsplit]
    simp
  refine ⟨hsplit, hlen, ?_, ?_⟩
  · have hsl := splitRows_length buf
    omega
  · intro r hr
    rw [hsplit] at hr
    obtain ⟨y, hy, rfl⟩ := List.mem_map.mp hr
    obtain ⟨row, hrow⟩ := Option.isSome_iff_exists.mp
      (rowsToks_elim cfg L frame cfg.h buf hbuf y (List.mem_range.mp hy))
    rw [hrow]
    simp only [Option.getD_some]
    exact rowToks_counts cfg L frame y row hrow

/-- C9, witness: on an 80×24 terminal (where `text_start_x = 12` and
`notice_start_x = 56`, so no guard subtraction underflows and the buffer is
composed) the frame-0 buffer splits into exactly 24 rows. -/
theorem frame_buffer_row_structure_witness :
    (1 ≤ (Config.mk 80 24 [] 0).h
      ∧ (frameToks ⟨80, 24, [], 0⟩ (layout 80 24) 0).isSome) ∧
    (splitRows ((frameToks ⟨80, 24, [], 0⟩ (layout 80 24) 0).getD [])).length
      = (Config.mk 80 24 [] 0).h :=
  ⟨⟨by decide, frameToks_isSome ⟨80, 24, [], 0⟩ (layout 80 24) 0 (by decide) (by decide)⟩,
   (frame_buffer_row_structure ⟨80, 24, [], 0⟩ (layout 80 24) 0 (by decide)
      (frameToks_isSome ⟨80, 24, [], 0⟩ (layout 80 24) 0 (by decide) (by decide))).2.1⟩

/-- C10: every character lookup inside the overlay regions is total: every
line of the trimmed art text has exactly the first line's length (56, the
computed `text_width`); the notice box is exactly `NOTICE.len()` columns
wide whenever the terminal can hold it (`w ≥ NOTICE.len() + 1`); and for
every geometry and cell the Compositor's character lookup succeeds, so the
`unwrap`s in the character-selection step never fail. -/
theorem overlay_char_lookups_total :
    (∀ l ∈ text_lines, l.length = text_width) ∧ text_width = 56 ∧
    (∀ w h : Nat, NOTICE.length + 1 ≤ w →
      (layout w h).notice_end_x - (layout w h).notice_start_x = NOTICE.length) ∧
    (∀ w h x y : Nat, (cellCharOpt (layout w h) x y).isSome) := by
  refine ⟨text_lines_width, text_width_eval, fun w h hw => ?_, fun w h x y => ?_⟩
  · have hnl : NOTICE.length = 23 := notice_len_eval
    show w - 1 - (w - NOTICE.length - 1) = NOTICE.length
    omega
  · unfold cellCharOpt
    split_ifs with hA hN
    · exact art_lookup_isSome _ x y rfl rfl hA.1 hA.2.1 hA.2.2.1 hA.2.2.2
    · exact notice_lookup_isSome w h x hN.2.2
    · rfl

/-- C10, witness: on an 80-column terminal the notice box is exactly 23
columns wide. -/
theorem overlay_char_lookups_total_witness :
    NOTICE.length + 1 ≤ 80 ∧
    (layout 80 24).notice_end_x - (layout 80 24).notice_start_x = NOTICE.length :=
  ⟨by decide, overlay_char_lookups_total.2.2.1 80 24 (by decide)⟩

end PrideMonth
